import Mathlib

/-!
Verification of the axisymmetric Helmholtz boundary-integral kernels of
`src/Python/HelmholtzIntegralsRAD.py` (AcousticBEM).

The Python source is shallowly embedded: meridian points are pairs of reals,
promoted 3-D vectors are triples of reals, kernel values are complex numbers.
Machine floating point is modelled by exact real arithmetic (the spec allows a
higher-precision implementation), `np.pi` by `Real.pi`, `numpy` norms by
`Real.sqrt` of the sum of squares.  Python 3 semantics are used for the
operators: `/` is true division (also on two integers), `int()` truncates
toward zero, `np.sign` is the three-valued sign.  A Python exception
propagating out of a call is modelled by `Option.none`; on the evaluated
paths the only raising operations are the unbound-name dereference in
`ComputeMt`'s static branch (NameError) and the `int()` conversion of the
infinite/NaN `nSections` ratio for a degenerate element `qa = qb`
(OverflowError/ValueError) — numpy scalar division by zero yields inf/NaN
with a warning, it does not raise.
-/

namespace AcousticBEM

/-- A meridian-plane point or vector: (radial, axial) coordinates. -/
abbrev V2 := ℝ × ℝ

/-- A 3-D vector obtained by revolving meridian data. -/
abbrev V3 := ℝ × ℝ × ℝ

/-- Euclidean norm of a meridian-plane vector (`numpy.linalg.norm` on 2 components). -/
noncomputable def norm2 (v : V2) : ℝ := Real.sqrt (v.1 ^ 2 + v.2 ^ 2)

/-- Euclidean norm of a 3-D vector (`numpy.linalg.norm` on 3 components). -/
noncomputable def norm3 (v : V3) : ℝ := Real.sqrt (v.1 ^ 2 + v.2.1 ^ 2 + v.2.2 ^ 2)

/-- Dot product of 3-D vectors (`np.dot`). -/
def dot3 (a b : V3) : ℝ := a.1 * b.1 + a.2.1 * b.2.1 + a.2.2 * b.2.2

/-- Python `int()` applied to a float: truncation toward zero. -/
noncomputable def pyInt (x : ℝ) : ℤ := if 0 ≤ x then ⌊x⌋ else -⌊-x⌋

/-- Model of `np.sign` on a real scalar. -/
noncomputable def pySign (x : ℝ) : ℝ := if 0 < x then 1 else if x < 0 then -1 else 0

/-- Gauss–Legendre abscissae of the pinned 8-point sample table
(source lines 29-36, repeated at lines 63-70): column 0 of `samples`. -/
noncomputable def gaussAbscissa : ℕ → ℝ
  | 0 => 0.980144928249
  | 1 => 0.898333238707
  | 2 => 0.762766204958
  | 3 => 0.591717321248
  | 4 => 0.408282678752
  | 5 => 0.237233795042
  | 6 => 0.101666761293
  | 7 => 1.985507175123e-2
  | _ => 0

/-- Gauss–Legendre weights of the pinned 8-point sample table: column 1 of `samples`. -/
noncomputable def gaussWeight : ℕ → ℝ
  | 0 => 5.061426814519e-2
  | 1 => 0.111190517227
  | 2 => 0.156853322939
  | 3 => 0.181341891689
  | 4 => 0.181341891689
  | 5 => 0.156853322939
  | 6 => 0.111190517227
  | 7 => 5.061426814519e-2
  | _ => 0

/-- Angle of composite sample `i` of `CircularIntegratorPi` (source lines 43-46):
`arcAbscissa = i / 8 + samples[i % 8, 0]`, then `arcAbscissa *= pi / segments`.
Note `i / self.samples.shape[0]` is Python 3 TRUE division of two integers. -/
noncomputable def arcAbscissa (segments : ℤ) (i : ℕ) : ℝ :=
  ((i : ℝ) / 8 + gaussAbscissa (i % 8)) * (Real.pi / (segments : ℝ))

/-- Precomputed rotation pair of composite sample `i` (source line 47). -/
noncomputable def rotationFactors (segments : ℤ) (i : ℕ) : ℝ × ℝ :=
  (Real.cos (arcAbscissa segments i), Real.sin (arcAbscissa segments i))

/-- Evaluation loop of `CircularIntegratorPi.integrate` (source lines 49-53), with
the table of precomputed rotation pairs abstracted as `rot`:
`nSamples = segments * 8` samples, each weighted by `samples[n % 8, 1]`, the sum
scaled by `pi / segments`. -/
noncomputable def integrateRot (rot : ℕ → ℝ × ℝ) (segments : ℤ) (func : ℝ × ℝ → ℂ) : ℂ :=
  (∑ i ∈ Finset.range (segments * 8).toNat, (gaussWeight (i % 8) : ℂ) * func (rot i))
    * (Real.pi : ℂ) / (segments : ℂ)

/-- `CircularIntegratorPi(segments).integrate(func)`: the evaluation loop applied to
the rotation pairs precomputed by the constructor. -/
noncomputable def integrate (segments : ℤ) (func : ℝ × ℝ → ℂ) : ℂ :=
  integrateRot (rotationFactors segments) segments func

/-- `ComplexQuadGenerator(func, start, end)` (source lines 55-77): the 8-point rule
with the abscissae squared in the sample points, each term additionally weighted by
the abscissa, and the total scaled by `2 * norm(end - start)`. -/
noncomputable def complexQuadGenerator (func : V2 → ℂ) (start fin : V2) : ℂ :=
  2 * (∑ n ∈ Finset.range 8,
        (gaussWeight n : ℂ) * func (start + gaussAbscissa n ^ 2 • (fin - start))
          * (gaussAbscissa n : ℂ))
    * (norm2 (fin - start) : ℂ)

/-- Modelled from the spec: the baseline line quadrature `ComplexQuad` is imported
from `Jupyter.HelmholtzIntegrals2D`, a repository file that is not among the
sources.  Per the spec it is the "fixed 8-point Gauss–Legendre complex integral of
a regular function along a straight meridian-plane segment", reusing the same
pinned 8-point sample table over [0, 1]. -/
noncomputable def complexQuad (func : V2 → ℂ) (start fin : V2) : ℂ :=
  (∑ n ∈ Finset.range 8, (gaussWeight n : ℂ) * func (start + gaussAbscissa n • (fin - start)))
    * (norm2 (fin - start) : ℂ)

/-- `ComplexQuadCone(func, start, end, segments)` (source lines 79-85): composite
baseline quadrature over `segments` equal subsegments. -/
noncomputable def complexQuadCone (func : V2 → ℂ) (start fin : V2) (segments : ℤ) : ℂ :=
  ∑ s ∈ Finset.range segments.toNat,
    complexQuad func (start + (s : ℝ) • ((1 / (segments : ℝ)) • (fin - start)))
      (start + ((s : ℝ) + 1) • ((1 / (segments : ℝ)) • (fin - start)))

/-- Modelled from the spec: `Normal2D` is imported from `Jupyter.Geometry`, a
repository file that is not among the sources.  Per the spec it is the
"normal-vector utility returning the outward unit normal of a meridian-plane
segment"; we take the standard convention of rotating the segment direction a
quarter turn and normalizing. -/
noncomputable def normal2D (a b : V2) : V2 :=
  ((b.2 - a.2) / norm2 (b - a), -(b.1 - a.1) / norm2 (b - a))

/-- Azimuthal section count derived identically in all four kernel evaluators
(source lines 88-92, 167-173, 220-225, 270-276):
`q = 0.5 * (qa + qb)`, `nSections = 1 + int(q[0] * pi / norm(qb - qa))`. -/
noncomputable def nSections (qa qb : V2) : ℤ :=
  1 + pyInt (0.5 * (qa.1 + qb.1) * Real.pi / norm2 (qb - qa))

/-! ### ComputeL (source lines 87-164) -/

/-- Static single-layer circle integrand (source lines 103-106 and 137-140):
`1 / norm(q3 - p3)` with `q3 = (r*x0, r*x1, z)`, `p3 = (p0, 0, p1)`. -/
noncomputable def LStaticCircle (p : V2) (r z : ℝ) (c : ℝ × ℝ) : ℂ :=
  let p3 : V3 := (p.1, 0, p.2)
  let q3 : V3 := (r * c.1, r * c.2, z)
  let rr : V3 := q3 - p3
  ((1 / norm3 rr : ℝ) : ℂ)

/-- Correction-kernel circle integrand of the dynamic on-element branch of
`ComputeL` (source lines 119-123): `(exp(i k R) - 1) / R`. -/
noncomputable def LCorrCircle (k : ℝ) (p : V2) (r z : ℝ) (c : ℝ × ℝ) : ℂ :=
  let p3 : V3 := (p.1, 0, p.2)
  let q3 : V3 := (r * c.1, r * c.2, z)
  let rr : V3 := q3 - p3
  let RR : ℝ := norm3 rr
  (Complex.exp (Complex.I * k * RR) - 1) / (RR : ℂ)

/-- Dynamic single-layer circle integrand of the off-element branch of `ComputeL`
(source lines 153-157): `exp(i k R) / R`. -/
noncomputable def LDynCircle (k : ℝ) (p : V2) (r z : ℝ) (c : ℝ × ℝ) : ℂ :=
  let p3 : V3 := (p.1, 0, p.2)
  let q3 : V3 := (r * c.1, r * c.2, z)
  let rr : V3 := q3 - p3
  let RR : ℝ := norm3 rr
  Complex.exp (Complex.I * k * RR) / (RR : ℂ)

/-- `generatorFunc` of the static branches of `ComputeL` (source lines 97-108 and
131-142), with the circle-integrator section count `m` supplied by the caller
(`2 * nSections` on-element, `nSections` off-element):
`circle.integrate(circleFunc) * r / (2 * pi)`. -/
noncomputable def LStaticGen (p : V2) (m : ℤ) (x : V2) : ℂ :=
  integrate m (LStaticCircle p x.1 x.2) * (x.1 : ℂ) / (2 * (Real.pi : ℂ))

/-- `generatorFunc` of the dynamic on-element branch of `ComputeL`
(source lines 113-125); the source constructs `CircularIntegratorPi(2 * nSections)`,
so callers pass `m = 2 * nSections`. -/
noncomputable def LCorrGen (k : ℝ) (p : V2) (m : ℤ) (x : V2) : ℂ :=
  integrate m (LCorrCircle k p x.1 x.2) * (x.1 : ℂ) / (2 * (Real.pi : ℂ))

/-- `generatorFunc` of the dynamic off-element branch of `ComputeL`
(source lines 147-159). -/
noncomputable def LDynGen (k : ℝ) (p : V2) (m : ℤ) (x : V2) : ℂ :=
  integrate m (LDynCircle k p x.1 x.2) * (x.1 : ℂ) / (2 * (Real.pi : ℂ))

/-- `ComputeL(k, p, qa, qb, pOnElement)` (source lines 87-164).  The recursive call
`ComputeL(0.0, p, qa, qb, True)` of the dynamic on-element branch (line 127) takes
the `k == 0.0` on-element branch and is inlined as that branch's expression. -/
noncomputable def computeL (k : ℝ) (p qa qb : V2) (pOnElement : Bool) : ℂ :=
  if pOnElement then
    if k = 0 then
      complexQuadGenerator (LStaticGen p (2 * nSections qa qb)) p qa
        + complexQuadGenerator (LStaticGen p (2 * nSections qa qb)) p qb
    else
      (complexQuadGenerator (LStaticGen p (2 * nSections qa qb)) p qa
        + complexQuadGenerator (LStaticGen p (2 * nSections qa qb)) p qb)
        + complexQuad (LCorrGen k p (2 * nSections qa qb)) qa qb
  else
    if k = 0 then
      complexQuad (LStaticGen p (nSections qa qb)) qa qb
    else
      complexQuad (LDynGen k p (nSections qa qb)) qa qb

/-! ### ComputeM (source lines 166-217) -/

/-- Static double-layer circle integrand (source lines 182-187), with
`vq = Normal2D(qa, qb)` promoted to `vec_q3 = (vq0*x0, vq0*x1, vq1)`:
`-dot(rr, vec_q3) / (norm(rr) * dot(rr, rr))`. -/
noncomputable def MStaticCircle (p vq : V2) (r z : ℝ) (c : ℝ × ℝ) : ℂ :=
  let p3 : V3 := (p.1, 0, p.2)
  let q3 : V3 := (r * c.1, r * c.2, z)
  let vq3 : V3 := (vq.1 * c.1, vq.1 * c.2, vq.2)
  let rr : V3 := q3 - p3
  ((-dot3 rr vq3 / (norm3 rr * dot3 rr rr) : ℝ) : ℂ)

/-- Dynamic double-layer circle integrand (source lines 203-208):
`(i*k*R - 1) * exp(i*k*R) * dot(rr, vec_q3) / (R * dot(rr, rr))`. -/
noncomputable def MDynCircle (k : ℝ) (p vq : V2) (r z : ℝ) (c : ℝ × ℝ) : ℂ :=
  let p3 : V3 := (p.1, 0, p.2)
  let q3 : V3 := (r * c.1, r * c.2, z)
  let vq3 : V3 := (vq.1 * c.1, vq.1 * c.2, vq.2)
  let rr : V3 := q3 - p3
  let RR : ℝ := norm3 rr
  (Complex.I * k * RR - 1) * Complex.exp (Complex.I * k * RR) * (dot3 rr vq3 : ℂ)
    / ((RR * dot3 rr rr : ℝ) : ℂ)

/-- `generatorFunc` of the static branch of `ComputeM` (source lines 176-189). -/
noncomputable def MStaticGen (p vq : V2) (m : ℤ) (x : V2) : ℂ :=
  integrate m (MStaticCircle p vq x.1 x.2) * (x.1 : ℂ) / (2 * (Real.pi : ℂ))

/-- `generatorFunc` of the dynamic branch of `ComputeM` (source lines 197-210). -/
noncomputable def MDynGen (k : ℝ) (p vq : V2) (m : ℤ) (x : V2) : ℂ :=
  integrate m (MDynCircle k p vq x.1 x.2) * (x.1 : ℂ) / (2 * (Real.pi : ℂ))

/-- `ComputeM(k, p, qa, qb, pOnElement)` (source lines 166-217). -/
noncomputable def computeM (k : ℝ) (p qa qb : V2) (pOnElement : Bool) : ℂ :=
  if k = 0 then
    if pOnElement then
      complexQuad (MStaticGen p (normal2D qa qb) (nSections qa qb)) qa p
        + complexQuad (MStaticGen p (normal2D qa qb) (nSections qa qb)) p qb
    else
      complexQuad (MStaticGen p (normal2D qa qb) (nSections qa qb)) qa qb
  else
    if pOnElement then
      complexQuad (MDynGen k p (normal2D qa qb) (nSections qa qb)) qa p
        + complexQuad (MDynGen k p (normal2D qa qb) (nSections qa qb)) p qb
    else
      complexQuad (MDynGen k p (normal2D qa qb) (nSections qa qb)) qa qb

/-! ### ComputeMt (source lines 219-267) -/

/-- Name resolution of the identifier `vec` at source line 237
(`dotRnP = vecp[0] * rr[0] + vec[1] * rr[2]`).  No binding named `vec` exists in
any enclosing scope of that expression — the locals of `circleFunc`,
`generatorFunc` and `ComputeMt` are `q3`, `rr`, `dotRnP`, `circle`, `r`, `z`,
`p3`, `k`, `p`, `vecp`, `qa`, `qb`, `pOnElement`, `qab`, `q`, `nSections`,
`generatorFunc`, and the module globals are `np`, `norm`, `ComplexQuad`,
`Normal2D`, `CircularIntegratorPi`, `ComplexQuadGenerator`, `ComplexQuadCone`,
`ComputeL`, `ComputeM`, `ComputeMt`, `ComputeN` (`vec` occurs only as a local of
`ComplexQuadGenerator` and of `ComplexQuad`).  Evaluating the expression
therefore raises `NameError`, modelled as a failed lookup. -/
def mtStaticVecLookup : Option V2 := none

/-- Static adjoint double-layer circle integrand (source lines 234-238).  The
second term of `dotRnP` dereferences the unbound name `vec` (see
`mtStaticVecLookup`), so evaluation fails; the expression under the lookup keeps
the source shape `(vecp[0] * rr[0] + vec[1] * rr[2]) / (norm(rr) * dot(rr, rr))`. -/
noncomputable def MtStaticCircle (p vecp : V2) (r z : ℝ) (c : ℝ × ℝ) : Option ℂ :=
  let p3 : V3 := (p.1, 0, p.2)
  let q3 : V3 := (r * c.1, r * c.2, z)
  let rr : V3 := q3 - p3
  mtStaticVecLookup.map fun vec =>
    (((vecp.1 * rr.1 + vec.2 * rr.2.2) / (norm3 rr * dot3 rr rr) : ℝ) : ℂ)

/-- Dynamic adjoint double-layer circle integrand (source lines 254-259):
`-(i*k*R - 1) * exp(i*k*R) * dotRnP / (R * dot(rr, rr))` with
`dotRnP = vecp[0]*rr[0] + vecp[1]*rr[2]` (here `vecp` is used in both terms). -/
noncomputable def MtDynCircle (k : ℝ) (p vecp : V2) (r z : ℝ) (c : ℝ × ℝ) : ℂ :=
  let p3 : V3 := (p.1, 0, p.2)
  let q3 : V3 := (r * c.1, r * c.2, z)
  let rr : V3 := q3 - p3
  let RR : ℝ := norm3 rr
  let dotRnP : ℝ := vecp.1 * rr.1 + vecp.2 * rr.2.2
  (-(Complex.I * k * RR - 1) * Complex.exp (Complex.I * k * RR) * (dotRnP : ℂ)
    / ((RR * dot3 rr rr : ℝ) : ℂ))

/-- Left-to-right accumulation of possibly-failing summands: Python's `sum += t`
propagates the first exception raised by a term. -/
def optAdd (a b : Option ℂ) : Option ℂ := a.bind fun x => b.map fun y => x + y

/-- The loop of `CircularIntegratorPi.integrate` with a possibly-failing
integrand: `sum = 0.0; for n in range(nSamples): sum += w * func(...)`, then
`return sum * pi / segments`. -/
noncomputable def integrateOpt (rot : ℕ → ℝ × ℝ) (segments : ℤ) (func : ℝ × ℝ → Option ℂ) :
    Option ℂ :=
  ((List.range (segments * 8).toNat).foldl
      (fun acc i => optAdd acc ((func (rot i)).map fun v => (gaussWeight (i % 8) : ℂ) * v))
      (some 0)).map
    fun s => s * (Real.pi : ℂ) / (segments : ℂ)

/-- The loop of the spec-modelled `ComplexQuad` with a possibly-failing integrand. -/
noncomputable def complexQuadOpt (func : V2 → Option ℂ) (start fin : V2) : Option ℂ :=
  ((List.range 8).foldl
      (fun acc n =>
        optAdd acc ((func (start + gaussAbscissa n • (fin - start))).map
          fun v => (gaussWeight n : ℂ) * v))
      (some 0)).map
    fun s => s * (norm2 (fin - start) : ℂ)

/-- `generatorFunc` of the static branch of `ComputeMt` (source lines 228-240). -/
noncomputable def MtStaticGen (p vecp : V2) (m : ℤ) (x : V2) : Option ℂ :=
  (integrateOpt (rotationFactors m) m (MtStaticCircle p vecp x.1 x.2)).map
    fun v => v * (x.1 : ℂ) / (2 * (Real.pi : ℂ))

/-- `generatorFunc` of the dynamic branch of `ComputeMt` (source lines 248-261). -/
noncomputable def MtDynGen (k : ℝ) (p vecp : V2) (m : ℤ) (x : V2) : ℂ :=
  integrate m (MtDynCircle k p vecp x.1 x.2) * (x.1 : ℂ) / (2 * (Real.pi : ℂ))

/-- `ComputeMt(k, p, vecp, qa, qb, pOnElement)` (source lines 219-267), with Python
exceptions modelled as `none`: for a degenerate element `qa = qb` the `int()`
conversion inside `nSections` raises (OverflowError/ValueError on inf/NaN); in the
static branch the unbound name `vec` raises `NameError` as soon as the circle
integrand is evaluated; the dynamic branch only performs non-raising arithmetic. -/
noncomputable def computeMt (k : ℝ) (p vecp qa qb : V2) (pOnElement : Bool) : Option ℂ :=
  if qa = qb then none
  else
    if k = 0 then
      if pOnElement then
        optAdd (complexQuadOpt (MtStaticGen p vecp (nSections qa qb)) qa p)
          (complexQuadOpt (MtStaticGen p vecp (nSections qa qb)) p qb)
      else
        complexQuadOpt (MtStaticGen p vecp (nSections qa qb)) qa qb
    else
      if pOnElement then
        some (complexQuad (MtDynGen k p vecp (nSections qa qb)) qa p
          + complexQuad (MtDynGen k p vecp (nSections qa qb)) p qb)
      else
        some (complexQuad (MtDynGen k p vecp (nSections qa qb)) qa qb)

/-! ### ComputeN (source lines 269-400) -/

/-- Regularized hypersingular cone integrand `circleFunc` of the static
on-element branch of `ComputeN` (source lines 287-296), with
`vecp3 = (vecp0, 0, vecp1)`, `vec_q3 = sqrt(0.5) * (x0, x1, direction)`:
`(dnpnq + 3 * RNPRNQ) / (RR * dot(rr, rr))`. -/
noncomputable def NConeCircle (p vecp : V2) (direction : ℝ) (r z : ℝ) (c : ℝ × ℝ) : ℂ :=
  let p3 : V3 := (p.1, 0, p.2)
  let vecp3 : V3 := (vecp.1, 0, vecp.2)
  let q3 : V3 := (r * c.1, r * c.2, z)
  let vq3 : V3 := (Real.sqrt 0.5 * c.1, Real.sqrt 0.5 * c.2, Real.sqrt 0.5 * direction)
  let dnpnq : ℝ := dot3 vecp3 vq3
  let rr : V3 := q3 - p3
  let RR : ℝ := norm3 rr
  let dotRNP : ℝ := dot3 rr vecp3
  let dotRNQ : ℝ := -dot3 rr vq3
  let RNPRNQ : ℝ := dotRNP * dotRNQ / dot3 rr rr
  (((dnpnq + 3 * RNPRNQ) / (RR * dot3 rr rr) : ℝ) : ℂ)

/-- `coneFunc` of the static on-element branch of `ComputeN`
(source lines 281-298); the circle integrator uses `nSections` sections. -/
noncomputable def NConeGen (p vecp : V2) (m : ℤ) (direction : ℝ) (x : V2) : ℂ :=
  integrate m (NConeCircle p vecp direction x.1 x.2) * (x.1 : ℂ) / (2 * (Real.pi : ℂ))

/-- Apex direction of the cone at the `qa` side (source lines 302-304):
`direction = np.sign(qa[1] - qb[1]); if direction == 0.0: direction = 1.0`. -/
noncomputable def coneDirA (qa qb : V2) : ℝ :=
  if pySign (qa.2 - qb.2) = 0 then 1 else pySign (qa.2 - qb.2)

/-- Apex direction of the cone at the `qb` side (source lines 310-312):
`direction = np.sign(qb[1] - qa[1]); if direction == 0.0: direction = -1.0`. -/
noncomputable def coneDirB (qa qb : V2) : ℝ :=
  if pySign (qb.2 - qa.2) = 0 then -1 else pySign (qb.2 - qa.2)

/-- Static on-element branch of `ComputeN` (source lines 279-317): two cone
patches with apexes `tip_a = (0, qa[1] + dirA * qa[0])`,
`tip_b = (0, qb[1] + dirB * qb[0])`, integrated by `ComplexQuadCone` with
`int(qa[0] * sqrt(2) / lenAB) + 1` resp. `int(qb[0] * sqrt(2) / lenAB) + 1`
subsegments, the negated sum of the two returned. -/
noncomputable def computeNStaticOn (p vecp qa qb : V2) : ℂ :=
  -(complexQuadCone (NConeGen p vecp (nSections qa qb) (coneDirA qa qb)) qa
      ((0, qa.2 + coneDirA qa qb * qa.1) : V2)
      (pyInt (qa.1 * Real.sqrt 2 / norm2 (qb - qa)) + 1)
    + complexQuadCone (NConeGen p vecp (nSections qa qb) (coneDirB qa qb)) qb
      ((0, qb.2 + coneDirB qa qb * qb.1) : V2)
      (pyInt (qb.1 * Real.sqrt 2 / norm2 (qb - qa)) + 1))

/-- Correction-kernel circle integrand of the dynamic on-element branch of
`ComputeN` (source lines 326-343): the dynamic hypersingular kernel with its
static `1/R`, `1/R^2` leading terms subtracted,
`(FPGR - FPGR0) * RNPNQ + (FPGRR - FPGRR0) * RNPRNQ + k^2 * FPG0 / 2`. -/
noncomputable def NCorrCircle (k : ℝ) (p vecp vq : V2) (r z : ℝ) (c : ℝ × ℝ) : ℂ :=
  let p3 : V3 := (p.1, 0, p.2)
  let q3 : V3 := (r * c.1, r * c.2, z)
  let vq3 : V3 := (vq.1 * c.1, vq.1 * c.2, vq.2)
  let rr : V3 := q3 - p3
  let RR : ℝ := norm3 rr
  let DNPNQ : ℝ := vecp.1 * vq3.1 + vecp.2 * vq3.2.2
  let dotRnP : ℝ := vecp.1 * rr.1 + vecp.2 * rr.2.2
  let dotRnQ : ℝ := -dot3 rr vq3
  let RNPRNQ : ℝ := dotRnP * dotRnQ / dot3 rr rr
  let RNPNQ : ℝ := -(DNPNQ + RNPRNQ) / RR
  let IKR : ℂ := Complex.I * k * RR
  let FPG0 : ℝ := 1 / RR
  let FPGR : ℂ := Complex.exp IKR / (dot3 rr rr : ℂ) * (IKR - 1)
  let FPGR0 : ℝ := -1 / dot3 rr rr
  let FPGRR : ℂ :=
    Complex.exp IKR * (2 - 2 * IKR - ((k * RR : ℝ) : ℂ) ^ 2) / ((RR * dot3 rr rr : ℝ) : ℂ)
  let FPGRR0 : ℝ := 2 / (RR * dot3 rr rr)
  (FPGR - (FPGR0 : ℂ)) * (RNPNQ : ℂ) + (FPGRR - (FPGRR0 : ℂ)) * (RNPRNQ : ℂ)
    + ((k ^ 2 * FPG0 / 2 : ℝ) : ℂ)

/-- `generatorFunc` of the dynamic on-element branch of `ComputeN`
(source lines 320-345). -/
noncomputable def NCorrGen (k : ℝ) (p vecp vq : V2) (m : ℤ) (x : V2) : ℂ :=
  integrate m (NCorrCircle k p vecp vq x.1 x.2) * (x.1 : ℂ) / (2 * (Real.pi : ℂ))

/-- Static off-element circle integrand of `ComputeN` (source lines 358-371):
`FPGR * RNPNQ + FPGRR * RNPRNQ` with `FPGR = -1/dot(rr,rr)`,
`FPGRR = 2/(RR*dot(rr,rr))`. -/
noncomputable def NStaticOffCircle (p vecp vq : V2) (r z : ℝ) (c : ℝ × ℝ) : ℂ :=
  let p3 : V3 := (p.1, 0, p.2)
  let q3 : V3 := (r * c.1, r * c.2, z)
  let vq3 : V3 := (vq.1 * c.1, vq.1 * c.2, vq.2)
  let rr : V3 := q3 - p3
  let RR : ℝ := norm3 rr
  let DNPNQ : ℝ := vecp.1 * vq3.1 + vecp.2 * vq3.2.2
  let dotRnP : ℝ := vecp.1 * rr.1 + vecp.2 * rr.2.2
  let dotRnQ : ℝ := -dot3 rr vq3
  let RNPRNQ : ℝ := dotRnP * dotRnQ / dot3 rr rr
  let RNPNQ : ℝ := -(DNPNQ + RNPRNQ) / RR
  let FPGR : ℝ := -1 / dot3 rr rr
  let FPGRR : ℝ := 2 / (RR * dot3 rr rr)
  ((FPGR * RNPNQ + FPGRR * RNPRNQ : ℝ) : ℂ)

/-- Dynamic off-element circle integrand of `ComputeN` (source lines 383-396):
`FPGR * RNPNQ + FPGRR * RNPRNQ` with the dynamic `FPGR`, `FPGRR`. -/
noncomputable def NDynOffCircle (k : ℝ) (p vecp vq : V2) (r z : ℝ) (c : ℝ × ℝ) : ℂ :=
  let p3 : V3 := (p.1, 0, p.2)
  let q3 : V3 := (r * c.1, r * c.2, z)
  let vq3 : V3 := (vq.1 * c.1, vq.1 * c.2, vq.2)
  let rr : V3 := q3 - p3
  let RR : ℝ := norm3 rr
  let DNPNQ : ℝ := vecp.1 * vq3.1 + vecp.2 * vq3.2.2
  let dotRnP : ℝ := vecp.1 * rr.1 + vecp.2 * rr.2.2
  let dotRnQ : ℝ := -dot3 rr vq3
  let RNPRNQ : ℝ := dotRnP * dotRnQ / dot3 rr rr
  let RNPNQ : ℝ := -(DNPNQ + RNPRNQ) / RR
  let IKR : ℂ := Complex.I * k * RR
  let FPGR : ℂ := Complex.exp IKR / (dot3 rr rr : ℂ) * (IKR - 1)
  let FPGRR : ℂ :=
    Complex.exp IKR * (2 - 2 * IKR - ((k * RR : ℝ) : ℂ) ^ 2) / ((RR * dot3 rr rr : ℝ) : ℂ)
  FPGR * (RNPNQ : ℂ) + FPGRR * (RNPRNQ : ℂ)

/-- `generatorFunc` of the static off-element branch of `ComputeN`
(source lines 352-373). -/
noncomputable def NStaticOffGen (p vecp vq : V2) (m : ℤ) (x : V2) : ℂ :=
  integrate m (NStaticOffCircle p vecp vq x.1 x.2) * (x.1 : ℂ) / (2 * (Real.pi : ℂ))

/-- `generatorFunc` of the dynamic off-element branch of `ComputeN`
(source lines 377-398). -/
noncomputable def NDynOffGen (k : ℝ) (p vecp vq : V2) (m : ℤ) (x : V2) : ℂ :=
  integrate m (NDynOffCircle k p vecp vq x.1 x.2) * (x.1 : ℂ) / (2 * (Real.pi : ℂ))

/-- `ComputeN(k, p, vecp, qa, qb, pOnElement)` (source lines 269-400).  The
recursive call `ComputeN(0.0, p, vecp, qa, qb, True)` of the dynamic on-element
branch (line 347) takes the static on-element branch and is inlined as
`computeNStaticOn`; the call `ComputeL(0.0, p, qa, qb, True)` is `computeL`
applied at those arguments. -/
noncomputable def computeN (k : ℝ) (p vecp qa qb : V2) (pOnElement : Bool) : ℂ :=
  if pOnElement then
    if k = 0 then
      computeNStaticOn p vecp qa qb
    else
      computeNStaticOn p vecp qa qb - (k : ℂ) ^ 2 * computeL 0 p qa qb true / 2
        + complexQuad (NCorrGen k p vecp (normal2D qa qb) (nSections qa qb)) qa p
        + complexQuad (NCorrGen k p vecp (normal2D qa qb) (nSections qa qb)) p qb
  else
    if k = 0 then
      complexQuad (NStaticOffGen p vecp (normal2D qa qb) (nSections qa qb)) qa qb
    else
      complexQuad (NDynOffGen k p vecp (normal2D qa qb) (nSections qa qb)) qa qb

/-! ### Exception wrappers

`ComputeL`, `ComputeM` and `ComputeN` contain no raising operation on their
evaluated paths except the `int()` conversion inside the shared `nSections`
computation, which raises exactly when the element is degenerate (`qa = qb`,
giving `inf` or `NaN`); numpy scalar divisions by zero inside the kernels
produce `inf`/`NaN` with a warning but do not raise.  Their run models therefore
return `none` exactly for a degenerate element. -/

/-- Run model of `ComputeL`: `none` models the exception raised for `qa = qb`. -/
noncomputable def computeLRun (k : ℝ) (p qa qb : V2) (pOnElement : Bool) : Option ℂ :=
  if qa = qb then none else some (computeL k p qa qb pOnElement)

/-- Run model of `ComputeM`: `none` models the exception raised for `qa = qb`. -/
noncomputable def computeMRun (k : ℝ) (p qa qb : V2) (pOnElement : Bool) : Option ℂ :=
  if qa = qb then none else some (computeM k p qa qb pOnElement)

/-- Run model of `ComputeN`: `none` models the exception raised for `qa = qb`. -/
noncomputable def computeNRun (k : ℝ) (p vecp qa qb : V2) (pOnElement : Bool) : Option ℂ :=
  if qa = qb then none else some (computeN k p vecp qa qb pOnElement)

/-! ### Claim-side definitions -/

/-- Apex-direction sign as claim C4 states it for the `qa`-side cone: the sign of
the axial-coordinate difference, a tie defaulting to the fixed direction `+1`. -/
noncomputable def apexSignA (qa qb : V2) : ℝ :=
  if qb.2 < qa.2 then 1 else if qa.2 < qb.2 then -1 else 1

/-- Apex-direction sign as claim C4 states it for the `qb`-side cone: the sign of
the axial-coordinate difference, a tie defaulting to the fixed direction `-1`. -/
noncomputable def apexSignB (qa qb : V2) : ℝ :=
  if qa.2 < qb.2 then 1 else if qb.2 < qa.2 then -1 else -1

/-- Sum of the products weight times abscissa over the pinned 8-point table;
`ComplexQuadGenerator` of a constant function equals twice this sum times the
norm of the segment. -/
noncomputable def sumWeightAbscissa : ℝ :=
  ∑ n ∈ Finset.range 8, gaussWeight n * gaussAbscissa n

/-! ### Helper lemmas -/

theorem norm2_nonneg (v : V2) : 0 ≤ norm2 v := Real.sqrt_nonneg _

theorem pyInt_of_nonneg (x : ℝ) (h : 0 ≤ x) : pyInt x = ⌊x⌋ := if_pos h

theorem pyInt_nonneg (x : ℝ) (h : 0 ≤ x) : 0 ≤ pyInt x := by
  rw [pyInt_of_nonneg x h]
  exact Int.floor_nonneg.mpr h

theorem nSections_arg_nonneg (qa qb : V2) (h : 0 ≤ qa.1 + qb.1) :
    0 ≤ 0.5 * (qa.1 + qb.1) * Real.pi / norm2 (qb - qa) := by
  apply div_nonneg _ (norm2_nonneg _)
  have hpi := Real.pi_nonneg
  nlinarith

theorem one_le_nSections (qa qb : V2) (h : 0 ≤ qa.1 + qb.1) : 1 ≤ nSections qa qb := by
  have h0 := pyInt_nonneg _ (nSections_arg_nonneg qa qb h)
  unfold nSections
  omega

/-! ### Claim C10 -/

/-- C10 (confirmed): for a non-degenerate element with non-negative radial
coordinates, the azimuthal section count shared by all four kernel evaluators is
`1` plus the floor of (midpoint radial coordinate times pi over element length),
and both it and its doubled value (the on-element azimuthal resolution) satisfy
the `n >= 1` panel-count precondition of `CircularIntegratorPi`. -/
theorem nSections_panel_count (qa qb : V2) (_hne : qa ≠ qb) (ha : 0 ≤ qa.1) (hb : 0 ≤ qb.1) :
    nSections qa qb = 1 + ⌊0.5 * (qa.1 + qb.1) * Real.pi / norm2 (qb - qa)⌋ ∧
      1 ≤ nSections qa qb ∧ 1 ≤ 2 * nSections qa qb := by
  have h : 0 ≤ qa.1 + qb.1 := by linarith
  have h1 := one_le_nSections qa qb h
  refine ⟨?_, h1, by omega⟩
  unfold nSections
  rw [pyInt_of_nonneg _ (nSections_arg_nonneg qa qb h)]

/-- Witness for C10 at the concrete element qa = (1, 0), qb = (2, 0). -/
theorem nSections_panel_count_witness :
    ((1, 0) : V2) ≠ ((2, 0) : V2) ∧ (0 : ℝ) ≤ ((1, 0) : V2).1 ∧ (0 : ℝ) ≤ ((2, 0) : V2).1 ∧
      (nSections ((1, 0) : V2) ((2, 0) : V2)
          = 1 + ⌊0.5 * (((1, 0) : V2).1 + ((2, 0) : V2).1) * Real.pi
                  / norm2 (((2, 0) : V2) - ((1, 0) : V2))⌋ ∧
        1 ≤ nSections ((1, 0) : V2) ((2, 0) : V2) ∧
        1 ≤ 2 * nSections ((1, 0) : V2) ((2, 0) : V2)) :=
  ⟨by norm_num [Prod.ext_iff], by norm_num, by norm_num,
    nSections_panel_count _ _ (by norm_num [Prod.ext_iff]) (by norm_num) (by norm_num)⟩

/-! ### Claim C3 -/

/-- C3 (code_bug): the sample placement of `CircularIntegratorPi` does not
subdivide [0, pi] into equal panels carrying the scaled Gauss-Legendre
abscissae.  Already for panel count n = 1, composite sample i = 1 is placed at
angle (1/8 + 0.898333238707) * pi, beyond pi: the constructor computes the
panel offset with Python 3 true division `i / 8` where the equal-panel layout
requires the integer part `i // 8`. -/
theorem arcAbscissa_sample_beyond_pi : Real.pi < arcAbscissa 1 1 := by
  have h := Real.pi_pos
  unfold arcAbscissa gaussAbscissa
  norm_num
  nlinarith

/-! ### Claim C7 -/

theorem sum_gaussWeight_eight : ∑ j ∈ Finset.range 8, gaussWeight j = 1.00000000000038 := by
  norm_num [Finset.sum_range_succ, gaussWeight]

theorem sum_mod_eight (g : ℕ → ℝ) (m : ℕ) :
    ∑ i ∈ Finset.range (m * 8), g (i % 8) = m * ∑ j ∈ Finset.range 8, g j := by
  induction m with
  | zero => simp
  | succ m ih =>
    rw [show (m + 1) * 8 = m * 8 + 8 by ring, Finset.sum_range_add, ih]
    have he : ∑ i ∈ Finset.range 8, g ((m * 8 + i) % 8) = ∑ j ∈ Finset.range 8, g j := by
      refine Finset.sum_congr rfl fun i hi => ?_
      have hlt := Finset.mem_range.mp hi
      have hmod : (m * 8 + i) % 8 = i := by omega
      rw [hmod]
    rw [he]
    push_cast
    ring

/-- C7 (confirmed): for every panel count n >= 1 the `integrate` method of
`CircularIntegratorPi` applied to the constant function 1 returns a value within
1e-10 of pi (the pinned weights sum to 1.00000000000038, so the result is that
multiple of pi), and it does so for an arbitrary placement `rot` of the
composite samples, since a constant integrand never reads the rotation pairs. -/
theorem integrate_const_one (n : ℤ) (hn : 1 ≤ n) (rot : ℕ → ℝ × ℝ) :
    Complex.abs (integrate n (fun _ => 1) - Real.pi) ≤ 1e-10 ∧
      Complex.abs (integrateRot rot n (fun _ => 1) - Real.pi) ≤ 1e-10 := by
  suffices h : ∀ rot2 : ℕ → ℝ × ℝ,
      Complex.abs (integrateRot rot2 n (fun _ => 1) - Real.pi) ≤ 1e-10 from ⟨h _, h _⟩
  intro rot2
  lift n to ℕ using (by omega : (0 : ℤ) ≤ n) with m
  have hm : 1 ≤ m := by exact_mod_cast hn
  unfold integrateRot
  rw [show (((m : ℕ) : ℤ) * 8).toNat = m * 8 by omega]
  have hsum : (∑ i ∈ Finset.range (m * 8), (gaussWeight (i % 8) : ℂ) * (fun _ : ℝ × ℝ => (1 : ℂ)) (rot2 i))
      = (((m : ℝ) * ∑ j ∈ Finset.range 8, gaussWeight j : ℝ) : ℂ) := by
    calc (∑ i ∈ Finset.range (m * 8), (gaussWeight (i % 8) : ℂ) * (fun _ : ℝ × ℝ => (1 : ℂ)) (rot2 i))
        = ((∑ i ∈ Finset.range (m * 8), gaussWeight (i % 8) : ℝ) : ℂ) := by
          push_cast
          simp
      _ = (((m : ℝ) * ∑ j ∈ Finset.range 8, gaussWeight j : ℝ) : ℂ) := by
          rw [sum_mod_eight]
  rw [hsum]
  have hm0c : ((m : ℕ) : ℂ) ≠ 0 := Nat.cast_ne_zero.mpr (by omega)
  have hval : ((((m : ℝ) * ∑ j ∈ Finset.range 8, gaussWeight j : ℝ)) : ℂ) * (Real.pi : ℂ)
        / (((m : ℕ) : ℤ) : ℂ)
      = ((((∑ j ∈ Finset.range 8, gaussWeight j) - 1) * Real.pi + Real.pi : ℝ) : ℂ) := by
    push_cast
    rw [div_eq_iff hm0c]
    ring
  rw [hval]
  have habs : ((((∑ j ∈ Finset.range 8, gaussWeight j) - 1) * Real.pi + Real.pi : ℝ) : ℂ)
        - (Real.pi : ℂ)
      = ((((∑ j ∈ Finset.range 8, gaussWeight j) - 1) * Real.pi : ℝ) : ℂ) := by
    push_cast
    ring
  rw [habs, Complex.abs_ofReal, sum_gaussWeight_eight, abs_mul, abs_of_nonneg Real.pi_nonneg]
  have h4 := Real.pi_le_four
  have hpos := Real.pi_pos
  rw [show |(1.00000000000038 : ℝ) - 1| = 0.00000000000038 by rw [abs_of_nonneg] <;> norm_num]
  nlinarith

/-- Witness for C7 at panel count n = 1 and the code's own sample placement. -/
theorem integrate_const_one_witness :
    (1 : ℤ) ≤ 1 ∧ Complex.abs (integrate 1 (fun _ => 1) - Real.pi) ≤ 1e-10 :=
  ⟨by norm_num, (integrate_const_one 1 (by norm_num) (rotationFactors 1)).1⟩

/-! ### Claim C2 -/

theorem complexQuadGenerator_const (c : ℂ) (s e : V2) :
    complexQuadGenerator (fun _ => c) s e
      = ((2 * sumWeightAbscissa * norm2 (e - s) : ℝ) : ℂ) * c := by
  unfold complexQuadGenerator sumWeightAbscissa
  have hc : (∑ n ∈ Finset.range 8,
        (gaussWeight n : ℂ) * (fun _ : V2 => c) (s + gaussAbscissa n ^ 2 • (e - s))
          * (gaussAbscissa n : ℂ))
      = (∑ n ∈ Finset.range 8, (gaussWeight n : ℂ) * (gaussAbscissa n : ℂ)) * c := by
    rw [Finset.sum_mul]
    exact Finset.sum_congr rfl fun n _ => by ring
  rw [hc]
  push_cast
  ring

/-- C2 (counterexample): for start = (0, 0), end = (1, 0) the
substituted-singularity quadrature of the constant 1 differs from the claimed
value 2 * norm(end - start) = 2 by more than 1/2: the weighted sum of the
abscissae is about 1/2, so the quadrature returns about 1, not 2. -/
theorem complexQuadGenerator_const_one_not_double :
    1 / 2 < Complex.abs (complexQuadGenerator (fun _ => 1) ((0, 0) : V2) ((1, 0) : V2)
      - 2 * (norm2 (((1, 0) : V2) - ((0, 0) : V2)) : ℂ)) := by
  rw [complexQuadGenerator_const]
  have hn : norm2 (((1, 0) : V2) - ((0, 0) : V2)) = 1 := by
    rw [show (((1, 0) : V2) - ((0, 0) : V2)) = ((1, 0) : V2) by norm_num [Prod.ext_iff]]
    rw [norm2]
    norm_num
  rw [hn]
  have h1 : ((2 * sumWeightAbscissa * 1 : ℝ) : ℂ) * 1 - 2 * ((1 : ℝ) : ℂ)
      = ((2 * sumWeightAbscissa - 2 : ℝ) : ℂ) := by
    push_cast
    ring
  rw [h1, Complex.abs_ofReal]
  have hS : 2 * sumWeightAbscissa - 2 < 0 := by
    norm_num [sumWeightAbscissa, Finset.sum_range_succ, gaussWeight, gaussAbscissa]
  rw [abs_of_neg hS]
  norm_num [sumWeightAbscissa, Finset.sum_range_succ, gaussWeight, gaussAbscissa]

/-- C2 (amended, confirmed): for every pair of distinct meridian points, the
substituted-singularity quadrature of the constant 1 over [start, end] equals
norm(end - start) — not twice it — up to the relative rounding error 1e-9 of
the pinned sample table: each of the 8 samples is weighted by its abscissa and
the sum scaled by 2 * norm(end - start), and the weighted abscissae sum to about
1/2. -/
theorem complexQuadGenerator_const_one_norm (s e : V2) (_hne : s ≠ e) :
    Complex.abs (complexQuadGenerator (fun _ => 1) s e - (norm2 (e - s) : ℂ))
      ≤ 1e-9 * norm2 (e - s) := by
  rw [complexQuadGenerator_const]
  have h1 : ((2 * sumWeightAbscissa * norm2 (e - s) : ℝ) : ℂ) * 1 - (norm2 (e - s) : ℂ)
      = (((2 * sumWeightAbscissa - 1) * norm2 (e - s) : ℝ) : ℂ) := by
    push_cast
    ring
  rw [h1, Complex.abs_ofReal, abs_mul, abs_of_nonneg (norm2_nonneg _)]
  have hw : |2 * sumWeightAbscissa - 1| ≤ 1e-9 := by
    rw [abs_le]
    constructor <;>
      norm_num [sumWeightAbscissa, Finset.sum_range_succ, gaussWeight, gaussAbscissa]
  exact mul_le_mul_of_nonneg_right hw (norm2_nonneg _)

/-- Witness for the amended C2 at start = (0, 0), end = (1, 0). -/
theorem complexQuadGenerator_const_one_norm_witness :
    ((0, 0) : V2) ≠ ((1, 0) : V2) ∧
      Complex.abs (complexQuadGenerator (fun _ => 1) ((0, 0) : V2) ((1, 0) : V2)
          - (norm2 (((1, 0) : V2) - ((0, 0) : V2)) : ℂ))
        ≤ 1e-9 * norm2 (((1, 0) : V2) - ((0, 0) : V2)) :=
  ⟨by norm_num [Prod.ext_iff],
    complexQuadGenerator_const_one_norm _ _ (by norm_num [Prod.ext_iff])⟩

/-! ### Claim C8 -/

/-- C8 (confirmed): for k = 0 with p on the element, `ComputeL` splits the
generator-line integral at p into the two pieces toward qa and toward qb, each
evaluated by the substituted-singularity quadrature `ComplexQuadGenerator`
oriented so that the singular point p is the start of the segment, using an
azimuthal integrator with twice the derived section count in both pieces, and
returns the sum of the two pieces. -/
theorem computeL_static_on_split (p qa qb : V2) :
    computeL 0 p qa qb true
      = complexQuadGenerator (LStaticGen p (2 * nSections qa qb)) p qa
        + complexQuadGenerator (LStaticGen p (2 * nSections qa qb)) p qb := by
  simp [computeL]

/-! ### Claim C6 -/

/-- C6 (confirmed): for every k ≠ 0 with p on the element, `ComputeL` returns its
own static (k = 0) on-element value plus the baseline quadrature over [qa, qb]
of the azimuthally averaged regular correction kernel (exp(ikR) - 1)/R
(`LCorrGen`, whose circle integrand is `LCorrCircle`). -/
theorem computeL_dynamic_split (k : ℝ) (p qa qb : V2) (hk : k ≠ 0) :
    computeL k p qa qb true
      = computeL 0 p qa qb true
        + complexQuad (LCorrGen k p (2 * nSections qa qb)) qa qb := by
  simp [computeL, hk]

/-- Witness for C6 at k = 1, p = (1.5, 0), qa = (1, 0), qb = (2, 0). -/
theorem computeL_dynamic_split_witness :
    (1 : ℝ) ≠ 0 ∧
      computeL 1 ((1.5, 0) : V2) ((1, 0) : V2) ((2, 0) : V2) true
        = computeL 0 ((1.5, 0) : V2) ((1, 0) : V2) ((2, 0) : V2) true
          + complexQuad (LCorrGen 1 ((1.5, 0) : V2) (2 * nSections ((1, 0) : V2) ((2, 0) : V2)))
              ((1, 0) : V2) ((2, 0) : V2) :=
  ⟨by norm_num, computeL_dynamic_split 1 _ _ _ (by norm_num)⟩

/-! ### Claim C5 -/

/-- C5 (confirmed): for every k ≠ 0 with p on the element, `ComputeN` returns its
static (k = 0) on-element value, minus (k^2 / 2) times the static on-element
`ComputeL` value, plus the baseline quadrature of the regular correction kernel
(`NCorrGen`, the dynamic hypersingular kernel with its leading 1/R and 1/R^2
static terms subtracted, `NCorrCircle`) over [qa, p] and over [p, qb], summed. -/
theorem computeN_dynamic_split (k : ℝ) (p vecp qa qb : V2) (hk : k ≠ 0) :
    computeN k p vecp qa qb true
      = computeN 0 p vecp qa qb true - (k : ℂ) ^ 2 * computeL 0 p qa qb true / 2
        + complexQuad (NCorrGen k p vecp (normal2D qa qb) (nSections qa qb)) qa p
        + complexQuad (NCorrGen k p vecp (normal2D qa qb) (nSections qa qb)) p qb := by
  simp [computeN, hk]

/-- Witness for C5 at k = 1, p = (1.5, 0), vecp = (0, 1), qa = (1, 0), qb = (2, 0). -/
theorem computeN_dynamic_split_witness :
    (1 : ℝ) ≠ 0 ∧
      computeN 1 ((1.5, 0) : V2) ((0, 1) : V2) ((1, 0) : V2) ((2, 0) : V2) true
        = computeN 0 ((1.5, 0) : V2) ((0, 1) : V2) ((1, 0) : V2) ((2, 0) : V2) true
            - (1 : ℂ) ^ 2 * computeL 0 ((1.5, 0) : V2) ((1, 0) : V2) ((2, 0) : V2) true / 2
          + complexQuad (NCorrGen 1 ((1.5, 0) : V2) ((0, 1) : V2)
              (normal2D ((1, 0) : V2) ((2, 0) : V2)) (nSections ((1, 0) : V2) ((2, 0) : V2)))
              ((1, 0) : V2) ((1.5, 0) : V2)
          + complexQuad (NCorrGen 1 ((1.5, 0) : V2) ((0, 1) : V2)
              (normal2D ((1, 0) : V2) ((2, 0) : V2)) (nSections ((1, 0) : V2) ((2, 0) : V2)))
              ((1.5, 0) : V2) ((2, 0) : V2) :=
  ⟨by norm_num, computeN_dynamic_split 1 _ _ _ _ (by norm_num)⟩

/-! ### Claim C4 -/

theorem coneDirA_eq_apexSignA (qa qb : V2) : coneDirA qa qb = apexSignA qa qb := by
  unfold coneDirA apexSignA pySign
  rcases lt_trichotomy qb.2 qa.2 with h | h | h
  · have hd : 0 < qa.2 - qb.2 := by linarith
    simp [hd, h, not_lt_of_gt h]
  · have hd : ¬(0 < qa.2 - qb.2) := by linarith
    have hd2 : ¬(qa.2 - qb.2 < 0) := by linarith
    simp [hd, hd2, h, lt_irrefl]
  · have hd : ¬(0 < qa.2 - qb.2) := by linarith
    have hd2 : qa.2 - qb.2 < 0 := by linarith
    simp [hd, hd2, h, not_lt_of_gt h]

theorem coneDirB_eq_apexSignB (qa qb : V2) : coneDirB qa qb = apexSignB qa qb := by
  unfold coneDirB apexSignB pySign
  rcases lt_trichotomy qa.2 qb.2 with h | h | h
  · have hd : 0 < qb.2 - qa.2 := by linarith
    simp [hd, h, not_lt_of_gt h]
  · have hd : ¬(0 < qb.2 - qa.2) := by linarith
    have hd2 : ¬(qb.2 - qa.2 < 0) := by linarith
    simp [hd, hd2, h, lt_irrefl]
  · have hd : ¬(0 < qb.2 - qa.2) := by linarith
    have hd2 : qb.2 - qa.2 < 0 := by linarith
    simp [hd, hd2, h, not_lt_of_gt h]

/-- C4 (confirmed): for k = 0 with p on the element, `ComputeN` builds two cone
patches with apexes on the symmetry axis at axial offset direction times the
endpoint's radial coordinate, the apex-direction sign being the sign of the
axial-coordinate difference of the endpoints with per-side fixed tie defaults,
integrates the regularized hypersingular cone kernel over each patch with the
cone quadrature using floor(endpoint radial * sqrt 2 / element length) + 1
subsegments, and returns the negated sum of the two cone contributions. -/
theorem computeN_static_cone_structure (p vecp qa qb : V2) (ha : 0 ≤ qa.1) (hb : 0 ≤ qb.1) :
    computeN 0 p vecp qa qb true
      = -(complexQuadCone (NConeGen p vecp (nSections qa qb) (apexSignA qa qb)) qa
            ((0, qa.2 + apexSignA qa qb * qa.1) : V2)
            (⌊qa.1 * Real.sqrt 2 / norm2 (qb - qa)⌋ + 1)
          + complexQuadCone (NConeGen p vecp (nSections qa qb) (apexSignB qa qb)) qb
            ((0, qb.2 + apexSignB qa qb * qb.1) : V2)
            (⌊qb.1 * Real.sqrt 2 / norm2 (qb - qa)⌋ + 1)) := by
  have hA : pyInt (qa.1 * Real.sqrt 2 / norm2 (qb - qa))
      = ⌊qa.1 * Real.sqrt 2 / norm2 (qb - qa)⌋ :=
    pyInt_of_nonneg _ (div_nonneg (mul_nonneg ha (Real.sqrt_nonneg _)) (norm2_nonneg _))
  have hB : pyInt (qb.1 * Real.sqrt 2 / norm2 (qb - qa))
      = ⌊qb.1 * Real.sqrt 2 / norm2 (qb - qa)⌋ :=
    pyInt_of_nonneg _ (div_nonneg (mul_nonneg hb (Real.sqrt_nonneg _)) (norm2_nonneg _))
  simp [computeN, computeNStaticOn, coneDirA_eq_apexSignA, coneDirB_eq_apexSignB, hA, hB]

/-- Witness for C4 at p = (1.5, 0), vecp = (0, 1), qa = (1, 0), qb = (2, 0). -/
theorem computeN_static_cone_structure_witness :
    (0 : ℝ) ≤ ((1, 0) : V2).1 ∧ (0 : ℝ) ≤ ((2, 0) : V2).1 ∧
      computeN 0 ((1.5, 0) : V2) ((0, 1) : V2) ((1, 0) : V2) ((2, 0) : V2) true
        = -(complexQuadCone
              (NConeGen ((1.5, 0) : V2) ((0, 1) : V2)
                (nSections ((1, 0) : V2) ((2, 0) : V2)) (apexSignA ((1, 0) : V2) ((2, 0) : V2)))
              ((1, 0) : V2)
              ((0, ((1, 0) : V2).2 + apexSignA ((1, 0) : V2) ((2, 0) : V2) * ((1, 0) : V2).1) : V2)
              (⌊((1, 0) : V2).1 * Real.sqrt 2 / norm2 (((2, 0) : V2) - ((1, 0) : V2))⌋ + 1)
            + complexQuadCone
              (NConeGen ((1.5, 0) : V2) ((0, 1) : V2)
                (nSections ((1, 0) : V2) ((2, 0) : V2)) (apexSignB ((1, 0) : V2) ((2, 0) : V2)))
              ((2, 0) : V2)
              ((0, ((2, 0) : V2).2 + apexSignB ((1, 0) : V2) ((2, 0) : V2) * ((2, 0) : V2).1) : V2)
              (⌊((2, 0) : V2).1 * Real.sqrt 2 / norm2 (((2, 0) : V2) - ((1, 0) : V2))⌋ + 1)) :=
  ⟨by norm_num, by norm_num,
    computeN_static_cone_structure _ _ _ _ (by norm_num) (by norm_num)⟩

/-! ### Claim C1 -/

theorem optAdd_none_right (a : Option ℂ) : optAdd a none = none := by
  cases a <;> rfl

theorem foldl_optAdd_none (g : ℕ → Option ℂ) (l : List ℕ) :
    l.foldl (fun acc i => optAdd acc (g i)) none = none := by
  induction l with
  | nil => rfl
  | cons i t ih =>
    rw [List.foldl_cons]
    cases hg : g i <;> simpa [optAdd, hg] using ih

theorem foldl_optAdd_all_none (g : ℕ → Option ℂ) (hg : ∀ i, g i = none) (a : Option ℂ)
    (l : List ℕ) (hl : l ≠ []) :
    l.foldl (fun acc i => optAdd acc (g i)) a = none := by
  cases l with
  | nil => exact absurd rfl hl
  | cons i t =>
    rw [List.foldl_cons, hg i, optAdd_none_right]
    exact foldl_optAdd_none g t

theorem MtStaticCircle_none (p vecp : V2) (r z : ℝ) (c : ℝ × ℝ) :
    MtStaticCircle p vecp r z c = none := rfl

theorem integrateOpt_none (rot : ℕ → ℝ × ℝ) (m : ℤ) (hm : 1 ≤ m) (f : ℝ × ℝ → Option ℂ)
    (hf : ∀ x, f x = none) : integrateOpt rot m f = none := by
  unfold integrateOpt
  have hl : List.range (m * 8).toNat ≠ [] := by
    have h0 : 0 < (m * 8).toNat := by omega
    simp only [ne_eq, List.range_eq_nil]
    omega
  rw [foldl_optAdd_all_none _ (fun i => by rw [hf (rot i)]; rfl) _ _ hl]
  rfl

theorem MtStaticGen_none (p vecp : V2) (m : ℤ) (hm : 1 ≤ m) (x : V2) :
    MtStaticGen p vecp m x = none := by
  unfold MtStaticGen
  rw [integrateOpt_none _ _ hm _ (fun c => MtStaticCircle_none p vecp x.1 x.2 c)]
  rfl

theorem complexQuadOpt_none (f : V2 → Option ℂ) (hf : ∀ x, f x = none) (a b : V2) :
    complexQuadOpt f a b = none := by
  unfold complexQuadOpt
  rw [foldl_optAdd_all_none _ (fun n => by rw [hf]; rfl) _ _ (by simp)]
  rfl

/-- C1 (code_bug): for every input with k = 0 (and the axisymmetric domain
restriction making the derived section count positive), `ComputeMt` fails by
raising `NameError` instead of returning a finite complex value: the static
circle integrand computes its dot product as `vecp[0]*rr[0] + vec[1]*rr[2]`,
where `vec` is unbound (see `mtStaticVecLookup`), rather than using the
collocation-point normal `vecp` in both terms as the claim states. -/
theorem computeMt_static_raises (p vecp qa qb : V2) (b : Bool)
    (hq : 0 ≤ qa.1 + qb.1) (hne : qa ≠ qb) :
    computeMt 0 p vecp qa qb b = none := by
  have hm := one_le_nSections qa qb hq
  have hgen : ∀ x, MtStaticGen p vecp (nSections qa qb) x = none := fun x =>
    MtStaticGen_none _ _ _ hm x
  unfold computeMt
  rw [if_neg hne, if_pos rfl]
  cases b with
  | false => simpa using complexQuadOpt_none _ hgen qa qb
  | true =>
    have h1 := complexQuadOpt_none _ hgen qa p
    have h2 := complexQuadOpt_none _ hgen p qb
    simp [h1, h2, optAdd]

/-- Witness for C1 at p = (0.5, 0), vecp = (0, 1), qa = (0, 0), qb = (1, 0),
pOnElement = true: the static adjoint double-layer evaluation fails. -/
theorem computeMt_static_raises_witness :
    (0 : ℝ) ≤ ((0, 0) : V2).1 + ((1, 0) : V2).1 ∧ ((0, 0) : V2) ≠ ((1, 0) : V2) ∧
      computeMt 0 ((0.5, 0) : V2) ((0, 1) : V2) ((0, 0) : V2) ((1, 0) : V2) true = none :=
  ⟨by norm_num, by norm_num [Prod.ext_iff],
    computeMt_static_raises _ _ _ _ _ (by norm_num) (by norm_num [Prod.ext_iff])⟩

/-! ### Claim C9 -/

/-- C9 (counterexample): at the concrete negative wavenumber k = -1 with a
non-degenerate element, none of the four kernel evaluators fails with an
invalid-parameter error — each returns a value (through its dynamic branch),
refuting the claim that every such call fails synchronously. -/
theorem negative_wavenumber_not_rejected :
    (computeLRun (-1) ((5, 3) : V2) ((1, 0) : V2) ((2, 0) : V2) false).isSome = true ∧
      (computeMRun (-1) ((5, 3) : V2) ((1, 0) : V2) ((2, 0) : V2) false).isSome = true ∧
      (computeMt (-1) ((5, 3) : V2) ((0, 1) : V2) ((1, 0) : V2) ((2, 0) : V2) false).isSome
          = true ∧
      (computeNRun (-1) ((5, 3) : V2) ((0, 1) : V2) ((1, 0) : V2) ((2, 0) : V2) false).isSome
          = true := by
  have hne : ((1, 0) : V2) ≠ ((2, 0) : V2) := by norm_num [Prod.ext_iff]
  refine ⟨?_, ?_, ?_, ?_⟩ <;>
    simp [computeLRun, computeMRun, computeNRun, computeMt, hne]

/-- C9 (amended, confirmed): the evaluators perform no wavenumber validation at
all: for every k < 0 and non-degenerate element each of `ComputeL`, `ComputeM`,
`ComputeMt`, `ComputeN` treats k through its dynamic (k ≠ 0) branch and returns
a value; no invalid-parameter failure occurs. -/
theorem negative_wavenumber_returns_value (k : ℝ) (p vecp qa qb : V2) (b : Bool)
    (hk : k < 0) (hne : qa ≠ qb) :
    (computeLRun k p qa qb b).isSome = true ∧
      (computeMRun k p qa qb b).isSome = true ∧
      (computeMt k p vecp qa qb b).isSome = true ∧
      (computeNRun k p vecp qa qb b).isSome = true := by
  have hk0 : k ≠ 0 := ne_of_lt hk
  refine ⟨?_, ?_, ?_, ?_⟩ <;> cases b <;>
    simp [computeLRun, computeMRun, computeNRun, computeMt, hne, hk0]

/-- Witness for the amended C9 at k = -2, p = (3, 4), vecp = (1, 0),
qa = (0, 1), qb = (0, 2), pOnElement = true. -/
theorem negative_wavenumber_returns_value_witness :
    (-2 : ℝ) < 0 ∧ ((0, 1) : V2) ≠ ((0, 2) : V2) ∧
      ((computeLRun (-2) ((3, 4) : V2) ((0, 1) : V2) ((0, 2) : V2) true).isSome = true ∧
        (computeMRun (-2) ((3, 4) : V2) ((0, 1) : V2) ((0, 2) : V2) true).isSome = true ∧
        (computeMt (-2) ((3, 4) : V2) ((1, 0) : V2) ((0, 1) : V2) ((0, 2) : V2) true).isSome
            = true ∧
        (computeNRun (-2) ((3, 4) : V2) ((1, 0) : V2) ((0, 1) : V2) ((0, 2) : V2) true).isSome
            = true) :=
  ⟨by norm_num, by norm_num [Prod.ext_iff],
    negative_wavenumber_returns_value (-2) _ _ _ _ _ (by norm_num)
      (by norm_num [Prod.ext_iff])⟩

end AcousticBEM
